import Mathlib

/-!
Verification of the Rockchip camera HAL post-processing pipeline
(`PostProcessPipeline.cpp`, file `src/unnamed/part_000`), as a shallow
embedding: each definition below translates one function of the source
into a pure Lean function over explicit state.  Machine integers are
modelled as `Nat`/`Int` (with explicit 32-bit masks where a C bitwise
complement occurs), pointers as numeric identities, `shared_ptr`s that
may be null as `Option`, and notification of listeners as an explicit
list of emitted notifications returned next to the new state.
-/

/-- Android `status_t` success value (`OK` = 0). -/
def OK : Int := 0

/-- Android `status_t` failure value `UNKNOWN_ERROR` (`INT32_MIN`). -/
def UNKNOWN_ERROR : Int := -2147483648

/-- Modelled from the spec: `STATUS_NEED_NEXT_INPUT_FRAME` is declared in
`PostProcessPipeline.h`, which is not among the translated sources; the
spec only needs it to be a kernel status distinct from plain success
("the special *need next input* status"), so it is modelled as `1`. -/
def STATUS_NEED_NEXT_INPUT_FRAME : Int := 1

/-- `PostProcessUnit::kDefaultAllocBufferNums` (source line 122). -/
def kDefaultAllocBufferNums : Nat := 4

/-- Modelled from the spec: the transform-bitmask constants are declared
in `PostProcessPipeline.h`, which is not among the translated sources.
The spec describes a bitmask with device-wide (common) transform bits and
per-stream transform bits, iterated by bit position: common bits live at
shifts `1 .. MAX_COMMON_PROC_UNIT_SHIFT - 1` and stream bits at shifts
`MAX_COMMON_PROC_UNIT_SHIFT + 1 .. MAX_STREAM_PROC_UNIT_SHIFT - 1`
(source lines 602, 626, 697-699).  Each constant is one distinct bit in
the corresponding range. -/
def MAX_COMMON_PROC_UNIT_SHIFT : Nat := 8

/-- Modelled from the spec: see `MAX_COMMON_PROC_UNIT_SHIFT`. -/
def MAX_STREAM_PROC_UNIT_SHIFT : Nat := 16

/-- Modelled from the spec: common transform bit for UV noise reduction. -/
def kPostprocessTypeUvnr : Nat := 2 ^ 1

/-- Modelled from the spec: common transform bit for digital zoom. -/
def kPostProcessTypeDigitalZoom : Nat := 2 ^ 2

/-- Modelled from the spec: common transform bit for software lens shading. -/
def kPostProcessTypeSwLsc : Nat := 2 ^ 3

/-- Modelled from the spec: common transform bit for face detection. -/
def kPostProcessTypeFaceDetection : Nat := 2 ^ 4

/-- Modelled from the spec: common transform bit for crop/rotate/scale. -/
def kPostProcessTypeCropRotationScale : Nat := 2 ^ 5

/-- Modelled from the spec: per-stream transform bit for scale/rotate. -/
def kPostProcessTypeScaleAndRotation : Nat := 2 ^ 9

/-- Modelled from the spec: per-stream transform bit for JPEG encode. -/
def kPostProcessTypeJpegEncoder : Nat := 2 ^ 10

/-- Modelled from the spec: per-stream transform bit for bare memcpy. -/
def kPostProcessTypeCopy : Nat := 2 ^ 11

/-- Modelled from the spec: `NO_NEED_INTERNAL_BUFFER_PROCESS_TYPES` is
declared in `PostProcessPipeline.h`, which is not among the translated
sources.  Per the spec these are the stages that do not require a private
destination buffer and are excluded from the "is post-processing needed"
decision: the metadata-only detection stage ("deliberately excluded from
the is-post-processing-needed decision when it would be the only active
stage") and the injected bare-copy stage (the single-stream no-op
scenario must report `needsPostProcessing = false`). -/
def NO_NEED_INTERNAL_BUFFER_PROCESS_TYPES : Nat :=
  kPostProcessTypeFaceDetection ||| kPostProcessTypeCopy

/-- C complement `~m` of a 32-bit `int` mask, restricted to `Nat`. -/
def notMask32 (m : Nat) : Nat := 0xFFFFFFFF ^^^ m

/-- `HAL_PIXEL_FORMAT_BLOB` (Android pixel-format header, external). -/
def HAL_PIXEL_FORMAT_BLOB : Nat := 0x21

/-- `HAL_PIXEL_FORMAT_YCrCb_NV12` (Rockchip gralloc header, external). -/
def HAL_PIXEL_FORMAT_YCrCb_NV12 : Nat := 0x15

/-- `HAL_PIXEL_FORMAT_YCrCb_420_SP` (Android pixel-format header, external). -/
def HAL_PIXEL_FORMAT_YCrCb_420_SP : Nat := 0x11

/-- `V4L2_PIX_FMT_NV12` fourcc (Linux videodev header, external). -/
def V4L2_PIX_FMT_NV12 : Nat := 0x3231564E

/-- `V4L2_PIX_FMT_NV21` fourcc (Linux videodev header, external). -/
def V4L2_PIX_FMT_NV21 : Nat := 0x3132564E

/-- `CAMERA3_STREAM_OUTPUT` (camera3 header, external). -/
def CAMERA3_STREAM_OUTPUT : Nat := 0

/-- `CAMERA3_STREAM_ROTATION_90` (camera3 header, external). -/
def CAMERA3_STREAM_ROTATION_90 : Nat := 1

/-- `CAMERA3_STREAM_ROTATION_270` (camera3 header, external). -/
def CAMERA3_STREAM_ROTATION_270 : Nat := 3

/-- The format/locking view of a `CameraBuffer`: its pointer identity
(`addr`), whether `getBufferHandle()` is non-null, and its lock flag. -/
structure CamBuf where
  addr : Nat
  hasHandle : Bool
  locked : Bool
deriving DecidableEq, Repr

/-- `PostProcBuffer`: object identity `pid`, the (nullable) `cambuf`
shared pointer, and the pool slot `index`. -/
structure PostProcBuffer where
  pid : Nat
  cambuf : Option CamBuf
  index : Nat
deriving DecidableEq, Repr

/-- The `CameraBuffer*` key used by the sync-group table
(`buf->cambuf.get()`): the pointer identity, `none` for null. -/
def camKey (b : PostProcBuffer) : Option Nat := b.cambuf.map CamBuf.addr

/-- `in->cambuf->getBufferHandle() != nullptr` (source line 932). -/
def camHasHandle (b : PostProcBuffer) : Bool :=
  match b.cambuf with
  | some c => c.hasHandle
  | none => false

/-! ### Buffer pool (`PostProcBufferPools`, source lines 57-91)

Modelled from the spec: the underlying `SharedItemPool` template lives in
`common/SharedItemPool`, which is not among the translated sources.  Per
the spec's pool contract, `init(n)` pre-allocates `n` slots, `acquireItem`
non-blockingly hands out an available slot (the oldest available one) or
none, and a released slot becomes available again (at the tail).  The
pool is modelled as the list of its currently available slots. -/

/-- `SharedItemPool::init(n)`: `n` fresh default-constructed slots
(slot object identity `pid`, null `cambuf`, default index). -/
def PostProcBufferPools.initPool (n : Nat) : List PostProcBuffer :=
  (List.range n).map (fun i => ⟨i, none, 0⟩)

/-- `SharedItemPool::acquireItem`: pop the oldest available slot. -/
def PostProcBufferPools.poolAcquire :
    List PostProcBuffer → Option PostProcBuffer × List PostProcBuffer
  | [] => (none, [])
  | p :: rest => (some p, rest)

/-- The body loop of `createBufferPools` (source lines 64-72): for each
`i`, acquire a slot (fail with `UNKNOWN_ERROR` if none), set its `index`
to `i`; the local `shared_ptr` goes out of scope at the end of the
iteration, returning the slot to the pool's tail. -/
def PostProcBufferPools.createLoop :
    List Nat → List PostProcBuffer → Int × List PostProcBuffer
  | [], pool => (OK, pool)
  | i :: is, pool =>
    match pool with
    | [] => (UNKNOWN_ERROR, [])
    | p :: rest => PostProcBufferPools.createLoop is (rest ++ [{ p with index := i }])

/-- `PostProcBufferPools::createBufferPools(numBufs)` (source lines 57-75). -/
def PostProcBufferPools.createBufferPools (numBufs : Nat) : Int × List PostProcBuffer :=
  PostProcBufferPools.createLoop (List.range numBufs) (PostProcBufferPools.initPool numBufs)

/-- `k` successive `acquireItem` calls, dropping the acquired slots. -/
def PostProcBufferPools.acquireIter (pool : List PostProcBuffer) : Nat → List PostProcBuffer
  | 0 => pool
  | k + 1 => (PostProcBufferPools.poolAcquire (PostProcBufferPools.acquireIter pool k)).2

/-! ### Processing node (`PostProcessUnit`, source lines 93-499) -/

/-- The buffer-ownership regime `mBufType`: `kPostProcBufTypeInt`,
`kPostProcBufTypeExt`, `kPostProcBufTypePre`. -/
inductive PostProcBufType
  | typeInt
  | typeExt
  | typePre
deriving DecidableEq, Repr

/-- A notification handed to listeners by `notifyListeners`:
the buffer, the settings and the status. -/
abbrev Notif := Option PostProcBuffer × Option Nat × Int

/-- The mutable state of one `PostProcessUnit`.  Settings shared
pointers are modelled as `Option Nat` (identity or null); the node's
internal pool as the list of its available slots. -/
structure UnitState where
  bufType : PostProcBufType
  enable : Bool
  syncProcess : Bool
  threadRunning : Bool
  inBufferPool : List (PostProcBuffer × Option Nat)
  outBufferPool : List PostProcBuffer
  internalPool : List PostProcBuffer
  curIn : Option PostProcBuffer
  curSettings : Option Nat
  curOut : Option PostProcBuffer
deriving DecidableEq, Repr

/-- `PostProcessUnit::start` (source lines 179-192): no-op with `OK` if
the thread already runs, else mark running (the spawned worker thread
itself carries no state beyond the flag). -/
def PostProcessUnit.start (st : UnitState) : Int × UnitState :=
  if st.threadRunning then (OK, st)
  else (OK, { st with threadRunning := true })

/-- Unlock a pool slot's camera buffer if present and locked
(source lines 214-218). -/
def unlockCamBuf (p : PostProcBuffer) : PostProcBuffer :=
  match p.cambuf with
  | none => p
  | some c => { p with cambuf := some { c with locked := false } }

/-- The unlock loop of `PostProcessUnit::stop` (source lines 209-219):
`kDefaultAllocBufferNums` iterations, each acquiring a slot from the
internal pool (skipping the iteration when none), unlocking its camera
buffer, and returning the slot to the pool's tail at scope exit. -/
def stopUnlockLoop : Nat → List PostProcBuffer → List PostProcBuffer
  | 0, pool => pool
  | k + 1, [] => stopUnlockLoop k []
  | k + 1, p :: rest => stopUnlockLoop k (rest ++ [unlockCamBuf p])

/-- `PostProcessUnit::stop` (source lines 194-222): no-op with `OK` if
already stopped, else clear the running flag, wake and join the worker,
and unlock any still-locked internal buffers. -/
def PostProcessUnit.stop (st : UnitState) : Int × UnitState :=
  if !st.threadRunning then (OK, st)
  else (OK, { st with threadRunning := false,
                      internalPool := stopUnlockLoop kDefaultAllocBufferNums st.internalPool })

/-- `PostProcessUnit::addOutputBuffer` (source lines 241-254): only an
External-regime node accepts an externally supplied destination buffer;
otherwise `UNKNOWN_ERROR` with no state change. -/
def PostProcessUnit.addOutputBuffer (st : UnitState) (buf : PostProcBuffer) :
    Int × UnitState :=
  if st.bufType ≠ PostProcBufType.typeExt then (UNKNOWN_ERROR, st)
  else (OK, { st with outBufferPool := st.outBufferPool ++ [buf] })

/-- `PostProcessUnit::prepareProcess` (source lines 278-316): dequeue the
oldest input pair; keep an already-present destination; otherwise obtain
one per regime (Internal: own pool; External: oldest queued output
buffer; PassThrough: the input itself); if none was obtained, reset both
current-input slots (frame drop).  The blocked state (running with an
empty queue, before the condition wakes) is modelled as the identity. -/
def PostProcessUnit.prepareProcess (st : UnitState) : UnitState :=
  if !st.threadRunning then st
  else
    match st.inBufferPool with
    | [] => st
    | (b, sett) :: rest =>
      let st1 := { st with curIn := some b, curSettings := sett, inBufferPool := rest }
      if st1.curOut.isSome then st1
      else
        let st2 :=
          match st1.bufType with
          | PostProcBufType.typeInt =>
            match st1.internalPool with
            | [] => st1
            | p :: ps => { st1 with curOut := some p, internalPool := ps }
          | PostProcBufType.typeExt =>
            match st1.outBufferPool with
            | [] => st1
            | o :: os => { st1 with curOut := some o, outBufferPool := os }
          | PostProcBufType.typePre => { st1 with curOut := some b }
        if st2.curOut.isNone then { st2 with curIn := none, curSettings := none }
        else st2

/-- `PostProcessUnit::relayToNextProcUnit(err)` (source lines 319-337):
on `STATUS_NEED_NEXT_INPUT_FRAME` release only the input/settings slots
and return the status without notifying; otherwise notify listeners with
(current output, current settings, err) and reset all three slots.  The
status of the external listeners' own handling is out of scope and
modelled as `OK`. -/
def PostProcessUnit.relayToNextProcUnit (st : UnitState) (err : Int) :
    UnitState × List Notif × Int :=
  if err = STATUS_NEED_NEXT_INPUT_FRAME then
    ({ st with curIn := none, curSettings := none }, [], err)
  else
    ({ st with curOut := none, curIn := none, curSettings := none },
     [(st.curOut, st.curSettings, err)], OK)

/-- One iteration of `PostProcessUnit::doProcess` (source lines 339-361):
`prepareProcess`, then — only when both a current input and a current
output are present — run the kernel (its status abstracted as the
parameter `kernelStatus`, since the concrete kernels are pluggable) and
relay.  When either slot is empty, nothing is notified and the iteration
status stays `OK`. -/
def PostProcessUnit.doProcessStep (st : UnitState) (kernelStatus : Int) :
    UnitState × List Notif × Int :=
  let st1 := PostProcessUnit.prepareProcess st
  if st1.curIn.isSome && st1.curOut.isSome then
    PostProcessUnit.relayToNextProcUnit st1 kernelStatus
  else (st1, [], OK)

/-! ### Output synchronization handler
(`PostProcessPipeLine::OutputBuffersHandler`, source lines 897-950)

The sync-group table `mCamBufToSyncItemMap` is an association list from
`CameraBuffer*` keys (pointer identities, `camKey`) to indices into a
store of shared `syncItem`s (the `shared_ptr<syncItem>` sharing is what
the index models: several table entries point at the same mutable item).
The map's internal ordering is never relied upon by the source, so the
association list uses first-match lookup and first-match erase, and
`operator[]` is insert-or-assign. -/

/-- One `struct syncItem`: the countdown and the aliased buffer set. -/
structure SyncItem where
  sync_nums : Int
  sync_buffers : List PostProcBuffer
deriving DecidableEq, Repr

/-- State of the handler: `mMayNeedSyncStreamsOutput` (owned by the
pipeline, set by `prepare`), the sync-group table, and the store of
shared `syncItem`s. -/
structure HandlerState where
  mayNeedSync : Bool
  table : List (Option Nat × Nat)
  groups : List SyncItem
deriving DecidableEq, Repr

/-- `std::map::find` on the sync-group table. -/
def lookupTable : List (Option Nat × Nat) → Option Nat → Option Nat
  | [], _ => none
  | e :: t, k => if e.1 = k then some e.2 else lookupTable t k

/-- `std::map::erase(it)` of the (unique) entry found for a key. -/
def eraseKey : List (Option Nat × Nat) → Option Nat → List (Option Nat × Nat)
  | [], _ => []
  | e :: t, k => if e.1 = k then t else e :: eraseKey t k

/-- `std::map::operator[] = `: assign if the key is present, else insert. -/
def insertTable : List (Option Nat × Nat) → Option Nat → Nat → List (Option Nat × Nat)
  | [], k, g => [(k, g)]
  | e :: t, k, g => if e.1 = k then (k, g) :: t else e :: insertTable t k g

/-- Dereference a shared `syncItem` by store index. -/
def getGroup (gs : List SyncItem) (g : Nat) : SyncItem :=
  (gs.get? g).getD ⟨0, []⟩

/-- Write back a shared `syncItem` by store index. -/
def setGroup (gs : List SyncItem) (g : Nat) (it : SyncItem) : List SyncItem :=
  gs.set g it

/-- `OutputBuffersHandler::notifyNewFrame` (source lines 897-925): with
no fan-out, forward directly to the external completion listener.  Else
look the buffer's `cambuf` up in the table: if absent, forward directly;
if present, decrement the shared countdown, emit every buffer of the
group when it reaches zero, and erase the entry (the erase is
unconditional in the source).  The emitted list is what the external
listener receives (the settings and status of the triggering call are
forwarded unchanged and are not part of the model). -/
def OutputBuffersHandler.notifyNewFrame (s : HandlerState) (buf : PostProcBuffer) :
    HandlerState × List PostProcBuffer :=
  if !s.mayNeedSync then (s, [buf])
  else
    match lookupTable s.table (camKey buf) with
    | some g =>
      let it := getGroup s.groups g
      let nums' := it.sync_nums - 1
      ({ s with groups := setGroup s.groups g ⟨nums', it.sync_buffers⟩,
                table := eraseKey s.table (camKey buf) },
       if nums' = 0 then it.sync_buffers else [])
    | none => (s, [buf])

/-- `OutputBuffersHandler::addSyncBuffersIfNeed` (source lines 927-950):
when fan-out is possible, the output set has more than one buffer, the
input's camera buffer has a handle, and some output aliases the input's
camera buffer, install one shared `syncItem` (countdown = number of
output buffers, buffers = the whole output set) and map every output's
`cambuf` key to it. -/
def OutputBuffersHandler.addSyncBuffersIfNeed (s : HandlerState)
    (inb : PostProcBuffer) (out : List PostProcBuffer) : HandlerState :=
  if s.mayNeedSync ∧ out.length > 1 ∧ camHasHandle inb = true then
    if out.any (fun o => camKey o = camKey inb) then
      let g := s.groups.length
      { s with groups := s.groups ++ [⟨(out.length : Int), out⟩],
               table := out.foldl (fun t o => insertTable t (camKey o) g) s.table }
    else s
  else s

/-- A sequence of terminal deliveries processed by the handler, with the
concatenation of everything emitted to the external listener. -/
def notifyAll (s : HandlerState) : List PostProcBuffer → HandlerState × List PostProcBuffer
  | [] => (s, [])
  | b :: bs =>
    let r1 := OutputBuffersHandler.notifyNewFrame s b
    let r2 := notifyAll r1.1 bs
    (r2.1, r1.2 ++ r2.2)

/-! ### Pipeline graph builder (`PostProcessPipeLine::prepare`,
source lines 537-764, and `linkPostProcUnit`, lines 836-854)

Processing-node objects are identified by their creation order (`nextId`
counts creations); streams are identified by their position in the
requested stream list (the common chain's terminal registers stream `0`,
source line 684).  The node-level `prepare(in)` calls (pool allocation)
are covered by the pool model above and not repeated here. -/

/-- The source frame format handed to `prepare`. -/
structure FrameInfo where
  width : Nat
  height : Nat
deriving DecidableEq, Repr

/-- The fields of `camera3_stream_t` read by `prepare` /
`getRotationDegrees`. -/
structure Camera3Stream where
  streamType : Nat
  format : Nat
  width : Nat
  height : Nat
  cropRotateScaleDegrees : Nat
deriving DecidableEq, Repr

/-- Default-constructed stream (used only to model the unchecked
`streams_post_proc[0]` access totally). -/
def camera3StreamDefault : Camera3Stream := ⟨0, 0, 0, 0, 0⟩

/-- `PostProcessPipeLine::getRotationDegrees` (source lines 818-834),
with the `CHROME_BOARD` section included. -/
def getRotationDegrees (s : Camera3Stream) : Nat :=
  if s.streamType ≠ CAMERA3_STREAM_OUTPUT then 0
  else if s.cropRotateScaleDegrees = CAMERA3_STREAM_ROTATION_90 then 90
  else if s.cropRotateScaleDegrees = CAMERA3_STREAM_ROTATION_270 then 270
  else 0

/-- The per-stream transform bits of `prepare` (source lines 553-558):
re-encode for BLOB streams, scale/rotate when the pixel count differs
from the input's. -/
def streamProcessType (inf : FrameInfo) (s : Camera3Stream) : Nat :=
  (if s.format = HAL_PIXEL_FORMAT_BLOB then kPostProcessTypeJpegEncoder else 0) |||
  (if s.width * s.height ≠ inf.width * inf.height then kPostProcessTypeScaleAndRotation else 0)

/-- The common transform bits of `prepare` (source lines 543-569): the
rotation bit per rotated stream, and the digital-zoom bit whenever the
static metadata reports a maximal digital zoom above 1.0 (the float
metadata value is modelled as a rational).  Both accumulate inside the
per-stream loop, as in the source. -/
def commonProcessType (streams : List Camera3Stream) (maxZoom : ℚ) : Nat :=
  streams.foldl
    (fun acc s =>
      let acc1 := if getRotationDegrees s ≠ 0 then acc ||| kPostProcessTypeCropRotationScale else acc
      if 1 < maxZoom then acc1 ||| kPostProcessTypeDigitalZoom else acc1)
    0

/-- The copy-injection step of `prepare` (source lines 571-589): with
several streams, or a single stream and no buffer-needing common stage,
every stream whose mask is empty gets the bare-copy bit. -/
def injectCopyIfNeed (common : Nat) (l : List (Camera3Stream × Nat)) :
    List (Camera3Stream × Nat) :=
  if l.length > 1 ∨ (l.length = 1 ∧ common &&& notMask32 NO_NEED_INTERNAL_BUFFER_PROCESS_TYPES = 0) then
    l.map (fun p => if p.2 = 0 then (p.1, kPostProcessTypeCopy) else p)
  else l

/-- `streams_post_proc` as used after the injection step. -/
def streamsPostProc (inf : FrameInfo) (streams : List Camera3Stream) (maxZoom : ℚ) :
    List (Camera3Stream × Nat) :=
  injectCopyIfNeed (commonProcessType streams maxZoom)
    (streams.map (fun s => (s, streamProcessType inf s)))

/-- The `needpostprocess` decision of `prepare` (source lines 610-619). -/
def needPostProcess (common : Nat) (l : List (Camera3Stream × Nat)) : Bool :=
  (common &&& notMask32 NO_NEED_INTERNAL_BUFFER_PROCESS_TYPES != 0) ||
  ((l.headD (camera3StreamDefault, 0)).2 &&& notMask32 NO_NEED_INTERNAL_BUFFER_PROCESS_TYPES != 0)

/-- `needpostprocess` computed from `prepare`'s inputs. -/
def needPostProcessOf (inf : FrameInfo) (streams : List Camera3Stream) (maxZoom : ℚ) : Bool :=
  needPostProcess (commonProcessType streams maxZoom) (streamsPostProc inf streams maxZoom)

/-- The "take the highest set bit in shift range `lo .. lo+len-1`" scan
(source lines 602-606 and 697-703). -/
def lastSetBitIn (t lo len : Nat) : Nat :=
  (List.range' lo len).foldl (fun acc i => if t &&& 2 ^ i ≠ 0 then 2 ^ i else acc) 0

/-- `enum ProcessUnitLevel` (`kFirstLevel`, `kMiddleLevel`, `kLastLevel`). -/
inductive ProcUnitLevel
  | first
  | middle
  | last
deriving DecidableEq, Repr

/-- The pipeline's graph bookkeeping filled by `prepare`:
`nextId` counts node creations (node ids are `0 .. nextId-1` in creation
order), `units` is `mPostProcUnits`, the three level lists are
`mPostProcUnitArray`, `listeners` records every `attachListener` edge
(producer, listener) between nodes, `outHandlerListeners` the nodes that
attach the output-buffers handler, and `streamMap` is
`mStreamToProcUnitMap` (stream position ↦ node id). -/
structure BuildState where
  nextId : Nat
  units : List Nat
  firstLevel : List Nat
  middleLevel : List Nat
  lastLevel : List Nat
  listeners : List (Nat × Nat)
  outHandlerListeners : List Nat
  streamMap : List (Nat × Nat)
deriving DecidableEq, Repr

/-- Push a node into one `mPostProcUnitArray` bucket. -/
def levelPush (st : BuildState) (lvl : ProcUnitLevel) (id : Nat) : BuildState :=
  match lvl with
  | ProcUnitLevel.first => { st with firstLevel := st.firstLevel ++ [id] }
  | ProcUnitLevel.middle => { st with middleLevel := st.middleLevel ++ [id] }
  | ProcUnitLevel.last => { st with lastLevel := st.lastLevel ++ [id] }

/-- `PostProcessPipeLine::linkPostProcUnit(from, to, level)` (source
lines 836-854): error on a null `from`; attach `from` as listener of a
non-null `to`; error (without registering anything) on a null `to` at a
non-First level; otherwise record the node in `mPostProcUnits` and in
the bucket of `level`. -/
def linkPostProcUnit (fromU toU : Option Nat) (lvl : ProcUnitLevel) (st : BuildState) :
    Int × BuildState :=
  match fromU with
  | none => (UNKNOWN_ERROR, st)
  | some f =>
    match toU with
    | some t =>
      let st := { st with listeners := st.listeners ++ [(t, f)] }
      (OK, levelPush { st with units := st.units ++ [f] } lvl f)
    | none =>
      if lvl ≠ ProcUnitLevel.first then (UNKNOWN_ERROR, st)
      else (OK, levelPush { st with units := st.units ++ [f] } lvl f)

/-- The shared create-and-link pattern of both `prepare` loops (source
lines 665-688 and 740-758): create a node, link it at Middle when it has
an upstream producer and at First otherwise; when it is the terminal
node of its chain, link it again at Last (the source calls
`linkPostProcUnit` a second time), attach the output-buffers handler and
register the stream's terminal in `mStreamToProcUnitMap`. -/
def createLinked (toU : Option Nat) (isLast : Bool) (sIdx : Nat) (st : BuildState) :
    BuildState :=
  let id := st.nextId
  let st := { st with nextId := id + 1 }
  let st := (linkPostProcUnit (some id) toU
      (if toU.isSome then ProcUnitLevel.middle else ProcUnitLevel.first) st).2
  if isLast then
    let st := (linkPostProcUnit (some id) toU ProcUnitLevel.last st).2
    { st with outHandlerListeners := st.outHandlerListeners ++ [id],
              streamMap := st.streamMap ++ [(sIdx, id)] }
  else st

/-- The common-loop `switch` cases that create a node (source lines
634-663): a set common bit outside these cases is skipped. -/
def commonUnitKnown (t : Nat) : Bool :=
  t = kPostProcessTypeDigitalZoom || t = kPostprocessTypeUvnr ||
  t = kPostProcessTypeCropRotationScale || t = kPostProcessTypeSwLsc ||
  t = kPostProcessTypeFaceDetection

/-- One iteration of the common-chain loop (source lines 626-690).  The
accumulator carries the build state and `procunit_main_last`; a face
detection node is linked at First with no upstream and does not become
the new chain tail. -/
def commonStep (common lastCommon : Nat) (acc : BuildState × Option Nat) (i : Nat) :
    BuildState × Option Nat :=
  let test := 2 ^ i
  if common &&& test ≠ 0 ∧ commonUnitKnown test = true then
    let toU := if test = kPostProcessTypeFaceDetection then none else acc.2
    let mainLast' := if test = kPostProcessTypeFaceDetection then acc.2 else some acc.1.nextId
    (createLinked toU (lastCommon == test) 0 acc.1, mainLast')
  else acc

/-- The stream-loop `switch` cases that create a node (source lines
718-737). -/
def streamUnitKnown (t : Nat) : Bool :=
  t = kPostProcessTypeScaleAndRotation || t = kPostProcessTypeJpegEncoder ||
  t = kPostProcessTypeCopy

/-- One iteration of a stream's suffix-chain loop (source lines
708-759); the accumulator carries the build state and
`procunit_stream_last`. -/
def streamStep (procType lastStream sIdx : Nat) (acc : BuildState × Option Nat) (i : Nat) :
    BuildState × Option Nat :=
  let test := 2 ^ i
  if procType &&& test ≠ 0 ∧ streamUnitKnown test = true then
    (createLinked acc.2 (lastStream == test) sIdx acc.1, some acc.1.nextId)
  else acc

/-- The graph construction performed by `prepare` (source lines
592-760): compute the types, the common terminal bit (only when no
stream needs a private stage), run the common-chain loop over shifts
`1..7`, then each stream's suffix loop over shifts `9..15`, every stream
chain rooted at `procunit_main_last`. -/
def prepareBuild (inf : FrameInfo) (streams : List Camera3Stream) (maxZoom : ℚ) :
    BuildState :=
  let common := commonProcessType streams maxZoom
  let spp := streamsPostProc inf streams maxZoom
  let streamTypes : Nat := spp.foldl (fun a p => a ||| p.2) 0
  let lastCommon := if streamTypes = 0 then lastSetBitIn common 1 7 else 0
  let st0 : BuildState := ⟨0, [], [], [], [], [], [], []⟩
  let acc1 := (List.range' 1 7).foldl (commonStep common lastCommon) (st0, none)
  spp.enum.foldl
    (fun st ip =>
      ((List.range' 9 7).foldl
        (streamStep ip.2.2 (lastSetBitIn ip.2.2 9 7) ip.1) (st, acc1.2)).1)
    acc1.1

/-- The result of `PostProcessPipeLine::prepare`. -/
structure PrepareResult where
  needpostprocess : Bool
  build : BuildState
  mayNeedSyncStreamsOutput : Bool
deriving DecidableEq, Repr

/-- `PostProcessPipeLine::prepare` (source lines 537-764). -/
def PostProcessPipeLine.prepare (inf : FrameInfo) (streams : List Camera3Stream)
    (maxZoom : ℚ) : PrepareResult :=
  { needpostprocess := needPostProcessOf inf streams maxZoom,
    build := prepareBuild inf streams maxZoom,
    mayNeedSyncStreamsOutput := streams.length > 1 }

/-! ### Digital zoom kernel (`PostProcessUnitDigitalZoom`,
source lines 1429-1546) -/

/-- The format view of a `CameraBuffer` read by `checkFmt`. -/
structure CamFmt where
  halFormat : Nat
  v4l2Fmt : Nat
deriving DecidableEq, Repr

/-- A `CameraWindow` (crop region / active pixel array). -/
structure CamWindow where
  left : Nat
  top : Nat
  width : Nat
  height : Nat
deriving DecidableEq, Repr

/-- `PostProcessUnitDigitalZoom::checkFmt` (source lines 1438-1453),
kept with the source's inverted predicate: each `.._fmt_supported`
local is true when a buffer's format lies *outside* the supported set,
and the function returns their disjunction.  Null buffer pointers map
to `none`. -/
def PostProcessUnitDigitalZoom.checkFmt (inb outb : Option CamFmt) : Bool :=
  match inb, outb with
  | some i, some o =>
    let hal_fmt_supported :=
      (i.halFormat != HAL_PIXEL_FORMAT_YCrCb_NV12 &&
       i.halFormat != HAL_PIXEL_FORMAT_YCrCb_420_SP) ||
      (o.halFormat != HAL_PIXEL_FORMAT_YCrCb_NV12 &&
       o.halFormat != HAL_PIXEL_FORMAT_YCrCb_420_SP)
    let v4l_fmt_supported :=
      (i.v4l2Fmt != V4L2_PIX_FMT_NV12 && i.v4l2Fmt != V4L2_PIX_FMT_NV21) ||
      (o.v4l2Fmt != V4L2_PIX_FMT_NV12 && o.v4l2Fmt != V4L2_PIX_FMT_NV21)
    hal_fmt_supported || v4l_fmt_supported
  | _, _ => false

/-- The status returned by `PostProcessUnitDigitalZoom::processFrame`
(source lines 1455-1546): `OK` (after a plain copy) when the crop region
equals the active pixel array; `UNKNOWN_ERROR` when `checkFmt` returns
false; otherwise `OK` (the RGA path, with its in-place arm fallback,
always reports success). -/
def PostProcessUnitDigitalZoom.processFrameStatus (apa crop : CamWindow)
    (inb outb : CamFmt) : Int :=
  if crop.width = apa.width ∧ crop.height = apa.height ∧
     crop.left = apa.left ∧ crop.top = apa.top then OK
  else if !PostProcessUnitDigitalZoom.checkFmt (some inb) (some outb) then UNKNOWN_ERROR
  else OK

/-! ### Software lens shading configuration (`PostProcessUnitSwLsc::lsc_config`,
source lines 1210-1227: the block-size tables) -/

/-- The 1080p default `sizex` table (source line 1217). -/
def lscSizexDefault : List Nat := [120, 120, 120, 120, 120, 120, 120, 120]

/-- The 1080p default `sizey` table (source line 1218). -/
def lscSizeyDefault : List Nat := [67, 68, 67, 68, 67, 68, 67, 68]

/-- `sizex[i] = v` for a C `int32_t` index (out-of-range writes would be
undefined behaviour in the source; `List.set` leaves the list unchanged
there, which is never reached from the translated call). -/
def listSetNat (l : List Nat) (i : Int) (v : Nat) : List Nat := l.set i.toNat v

/-- The "generic split for any resolution" loop of `lsc_config` (source
lines 1220-1224), written `for (i = 0; i++; i < 8)`: per C semantics the
middle expression is the loop condition, so each round first evaluates
`i++` — testing the *old* value of `i` for truthiness and then
incrementing — and enters the body (which assigns `width/2/8` and
`height/2/8` at the already-incremented index) only when the old value
was non-zero; the third clause `i < 8` is an effect-free expression
whose value is discarded.  The first result component counts body
executions; the fuel bounds the (otherwise index-out-of-range) recursion
and is irrelevant whenever the condition fails at entry. -/
def lscSplitLoop : Nat → Int → Nat → Nat → List Nat → List Nat → Nat × List Nat × List Nat
  | 0, _, _, _, sx, sy => (0, sx, sy)
  | fuel + 1, i, w, h, sx, sy =>
    if i = 0 then (0, sx, sy)
    else
      let i1 := i + 1
      let sx1 := listSetNat sx i1 (w / 2 / 8)
      let sy1 := listSetNat sy i1 (h / 2 / 8)
      let r := lscSplitLoop fuel i1 w h sx1 sy1
      (r.1 + 1, r.2)

/-- `l[7] += d` (source lines 1226-1227). -/
def lscAdjustLast (l : List Nat) (d : Nat) : List Nat := l.set 7 (l.getD 7 0 + d)

/-- The block-size portion of `PostProcessUnitSwLsc::lsc_config` (source
lines 1213-1227): the defaults, the (never-entered) generic-split loop
started at `i = 0`, then the last-entry adjustment by half the
width/height remainder modulo 16.  Returns (body-execution count of the
generic-split loop, `sizex`, `sizey`). -/
def PostProcessUnitSwLsc.lscConfigSizes (w h : Nat) : Nat × List Nat × List Nat :=
  let r := lscSplitLoop 8 0 w h lscSizexDefault lscSizeyDefault
  (r.1, lscAdjustLast r.2.1 ((w % 16) / 2), lscAdjustLast r.2.2 ((h % 16) / 2))

/-! ## Theorems -/

/-- C4: in a worker-loop iteration that dequeues an input (running node,
non-empty queue, no retained destination), `prepareProcess` obtains the
destination per regime — Internal from the node's own pool, External by
popping the oldest externally supplied buffer, PassThrough by reusing
the input buffer — and when no destination is obtained it resets both
current slots and the iteration notifies no listener and reports no
error. -/
theorem prepareProcess_regime (st : UnitState) (b : PostProcBuffer) (sett : Option Nat)
    (rest : List (PostProcBuffer × Option Nat))
    (hrun : st.threadRunning = true)
    (hq : st.inBufferPool = (b, sett) :: rest)
    (hout : st.curOut = none) :
    (st.bufType = PostProcBufType.typeInt → st.internalPool = [] →
      PostProcessUnit.prepareProcess st =
        { st with inBufferPool := rest, curIn := none, curSettings := none }) ∧
    (∀ p ps, st.bufType = PostProcBufType.typeInt → st.internalPool = p :: ps →
      PostProcessUnit.prepareProcess st =
        { st with inBufferPool := rest, curIn := some b, curSettings := sett,
                  curOut := some p, internalPool := ps }) ∧
    (st.bufType = PostProcBufType.typeExt → st.outBufferPool = [] →
      PostProcessUnit.prepareProcess st =
        { st with inBufferPool := rest, curIn := none, curSettings := none }) ∧
    (∀ o os, st.bufType = PostProcBufType.typeExt → st.outBufferPool = o :: os →
      PostProcessUnit.prepareProcess st =
        { st with inBufferPool := rest, curIn := some b, curSettings := sett,
                  curOut := some o, outBufferPool := os }) ∧
    (st.bufType = PostProcBufType.typePre →
      PostProcessUnit.prepareProcess st =
        { st with inBufferPool := rest, curIn := some b, curSettings := sett,
                  curOut := some b }) ∧
    (∀ ks, (PostProcessUnit.prepareProcess st).curOut = none →
      PostProcessUnit.doProcessStep st ks = (PostProcessUnit.prepareProcess st, [], OK) ∧
      (PostProcessUnit.prepareProcess st).curIn = none ∧
      (PostProcessUnit.prepareProcess st).curSettings = none) := by
  refine ⟨?_, ?_, ?_, ?_, ?_, ?_⟩
  · intro h1 h2
    simp [PostProcessUnit.prepareProcess, hrun, hq, hout, h1, h2]
  · intro p ps h1 h2
    simp [PostProcessUnit.prepareProcess, hrun, hq, hout, h1, h2]
  · intro h1 h2
    simp [PostProcessUnit.prepareProcess, hrun, hq, hout, h1, h2]
  · intro o os h1 h2
    simp [PostProcessUnit.prepareProcess, hrun, hq, hout, h1, h2]
  · intro h1
    simp [PostProcessUnit.prepareProcess, hrun, hq, hout, h1]
  · intro ks hnone
    have hdrop : (PostProcessUnit.prepareProcess st).curIn = none ∧
        (PostProcessUnit.prepareProcess st).curSettings = none := by
      cases hbt : st.bufType with
      | typeInt =>
        cases hip : st.internalPool with
        | nil => simp [PostProcessUnit.prepareProcess, hrun, hq, hout, hbt, hip]
        | cons p ps =>
          exfalso
          simp [PostProcessUnit.prepareProcess, hrun, hq, hout, hbt, hip] at hnone
      | typeExt =>
        cases hop : st.outBufferPool with
        | nil => simp [PostProcessUnit.prepareProcess, hrun, hq, hout, hbt, hop]
        | cons o os =>
          exfalso
          simp [PostProcessUnit.prepareProcess, hrun, hq, hout, hbt, hop] at hnone
      | typePre =>
        exfalso
        simp [PostProcessUnit.prepareProcess, hrun, hq, hout, hbt] at hnone
    exact ⟨by simp [PostProcessUnit.doProcessStep, hnone], hdrop.1, hdrop.2⟩

/-- C4 witness: a running Internal-regime node with one queued input and
an exhausted pool drops the input, resets both slots, and the iteration
emits no notification and returns `OK`. -/
theorem prepareProcess_regime_witness :
    let st : UnitState :=
      { bufType := PostProcBufType.typeInt, enable := true, syncProcess := false,
        threadRunning := true, inBufferPool := [(⟨7, none, 0⟩, some 3)],
        outBufferPool := [], internalPool := [], curIn := none,
        curSettings := none, curOut := none }
    st.threadRunning = true ∧ st.inBufferPool = [(⟨7, none, 0⟩, some 3)] ∧
    st.curOut = none ∧
    (st.bufType = PostProcBufType.typeInt → st.internalPool = [] →
      PostProcessUnit.prepareProcess st =
        { st with inBufferPool := [], curIn := none, curSettings := none }) := by
  refine ⟨rfl, rfl, rfl, ?_⟩
  exact (prepareProcess_regime _ ⟨7, none, 0⟩ (some 3) [] rfl rfl rfl).1

/-- C5: `addOutputBuffer` fails immediately with no state change on any
node whose regime is not External, and appends the buffer to the output
queue with success on an External-regime node. -/
theorem addOutputBuffer_regime (st : UnitState) (buf : PostProcBuffer) :
    (st.bufType ≠ PostProcBufType.typeExt →
      PostProcessUnit.addOutputBuffer st buf = (UNKNOWN_ERROR, st)) ∧
    (st.bufType = PostProcBufType.typeExt →
      PostProcessUnit.addOutputBuffer st buf =
        (OK, { st with outBufferPool := st.outBufferPool ++ [buf] })) := by
  constructor
  · intro h
    simp [PostProcessUnit.addOutputBuffer, h]
  · intro h
    simp [PostProcessUnit.addOutputBuffer, h]

/-- C5 witness: an Internal-regime node rejects an external buffer
unchanged; an External-regime node appends it. -/
theorem addOutputBuffer_regime_witness :
    let stI : UnitState :=
      { bufType := PostProcBufType.typeInt, enable := true, syncProcess := false,
        threadRunning := false, inBufferPool := [], outBufferPool := [],
        internalPool := [], curIn := none, curSettings := none, curOut := none }
    let stE : UnitState := { stI with bufType := PostProcBufType.typeExt }
    let buf : PostProcBuffer := ⟨1, none, 0⟩
    (stI.bufType ≠ PostProcBufType.typeExt →
      PostProcessUnit.addOutputBuffer stI buf = (UNKNOWN_ERROR, stI)) ∧
    (stE.bufType = PostProcBufType.typeExt →
      PostProcessUnit.addOutputBuffer stE buf =
        (OK, { stE with outBufferPool := stE.outBufferPool ++ [buf] })) := by
  exact ⟨(addOutputBuffer_regime _ _).1, (addOutputBuffer_regime _ _).2⟩

/-- C6: `start` and `stop` are idempotent — the second call of either
returns success and leaves the node's state exactly as the first call
left it. -/
theorem start_stop_idempotent (st : UnitState) :
    PostProcessUnit.start (PostProcessUnit.start st).2 = (OK, (PostProcessUnit.start st).2) ∧
    PostProcessUnit.stop (PostProcessUnit.stop st).2 = (OK, (PostProcessUnit.stop st).2) := by
  constructor
  · by_cases h : st.threadRunning <;> simp [PostProcessUnit.start, h]
  · by_cases h : st.threadRunning <;> simp [PostProcessUnit.stop, h]

/-- C7: on the "need next input" kernel status, `relayToNextProcUnit`
releases the current input and settings slots, retains the current
destination, and notifies no listener; a subsequent `prepareProcess`
with a retained destination dequeues the next input and reuses the
destination without touching any pool or output queue. -/
theorem needNextInput_retains_destination (st st2 : UnitState) (o b : PostProcBuffer)
    (sett : Option Nat) (rest : List (PostProcBuffer × Option Nat)) :
    (PostProcessUnit.relayToNextProcUnit st STATUS_NEED_NEXT_INPUT_FRAME =
      ({ st with curIn := none, curSettings := none }, [], STATUS_NEED_NEXT_INPUT_FRAME)) ∧
    (st2.threadRunning = true → st2.inBufferPool = (b, sett) :: rest →
     st2.curOut = some o →
      PostProcessUnit.prepareProcess st2 =
        { st2 with curIn := some b, curSettings := sett, inBufferPool := rest }) := by
  constructor
  · simp [PostProcessUnit.relayToNextProcUnit]
  · intro hrun hq hout
    simp [PostProcessUnit.prepareProcess, hrun, hq, hout]

/-- Concrete node state used by the C7 witness: running, one queued
input, a retained destination buffer. -/
def c7WitnessState : UnitState :=
  { bufType := PostProcBufType.typeInt, enable := true, syncProcess := false,
    threadRunning := true, inBufferPool := [(⟨8, none, 0⟩, some 5)], outBufferPool := [],
    internalPool := [], curIn := none, curSettings := none,
    curOut := some ⟨9, none, 0⟩ }

/-- C7 witness: a concrete running node with a retained destination and
one queued input. -/
theorem needNextInput_retains_destination_witness :
    c7WitnessState.threadRunning = true ∧
    c7WitnessState.inBufferPool = [(⟨8, none, 0⟩, some 5)] ∧
    c7WitnessState.curOut = some ⟨9, none, 0⟩ ∧
    PostProcessUnit.prepareProcess c7WitnessState =
      { c7WitnessState with curIn := some ⟨8, none, 0⟩, curSettings := some 5,
                            inBufferPool := [] } := by
  refine ⟨rfl, rfl, rfl, ?_⟩
  exact (needNextInput_retains_destination c7WitnessState c7WitnessState
    ⟨9, none, 0⟩ ⟨8, none, 0⟩ (some 5) []).2 rfl rfl rfl

/-- The creation loop with enough available slots succeeds and leaves
every untouched slot followed by the re-indexed, re-queued slots. -/
theorem createLoop_eq (is : List Nat) :
    ∀ pool : List PostProcBuffer, is.length ≤ pool.length →
    PostProcBufferPools.createLoop is pool =
      (OK, pool.drop is.length ++
        List.zipWith (fun i p => { p with index := i }) is (pool.take is.length)) := by
  induction is with
  | nil => intro pool _; simp [PostProcBufferPools.createLoop]
  | cons i is ih =>
    intro pool hlen
    cases pool with
    | nil => simp at hlen
    | cons p rest =>
      have hlen' : is.length ≤ rest.length := by
        simp at hlen; omega
      have hlen'' : is.length ≤ (rest ++ [{ p with index := i }]).length := by
        simp; omega
      rw [PostProcBufferPools.createLoop, ih _ hlen'']
      rw [List.drop_append_of_le_length hlen', List.take_append_of_le_length hlen']
      simp [List.zipWith]

/-- Mapping `index` over the re-indexed slots recovers the index list. -/
theorem map_index_zipWith (l1 : List Nat) :
    ∀ l2 : List PostProcBuffer, l1.length ≤ l2.length →
    (List.zipWith (fun i p => { p with index := i }) l1 l2).map PostProcBuffer.index = l1 := by
  induction l1 with
  | nil => intro l2 _; simp
  | cons i l1 ih =>
    intro l2 hlen
    cases l2 with
    | nil => simp at hlen
    | cons p l2 =>
      simp at hlen
      simp [List.zipWith, ih l2 hlen]

/-- `k` acquisitions drop the first `k` available slots. -/
theorem acquireIter_eq_drop (pool : List PostProcBuffer) :
    ∀ k : Nat, PostProcBufferPools.acquireIter pool k = pool.drop k := by
  intro k
  induction k with
  | zero => simp [PostProcBufferPools.acquireIter]
  | succ k ih =>
    rw [PostProcBufferPools.acquireIter, ih]
    cases hd : pool.drop k with
    | nil =>
      have : pool.drop (k + 1) = [] := by
        have := List.drop_eq_nil_iff.mp hd
        exact List.drop_eq_nil_iff.mpr (by omega)
      simp [PostProcBufferPools.poolAcquire, this]
    | cons q qs =>
      have : pool.drop (k + 1) = qs := by
        have := List.tail_drop pool k
        rw [hd] at this
        simpa using this.symm
      simp [PostProcBufferPools.poolAcquire, this]

/-- C8: for every capacity `C`, `createBufferPools C` succeeds, the `C`
pre-allocated slots end up with the distinct indices `0 .. C-1`, exactly
`C` subsequent `acquireItem` calls succeed before one yields no buffer,
and an acquisition hitting an empty pool makes the creation loop fail
with `UNKNOWN_ERROR`. -/
theorem createBufferPools_spec (C : Nat) :
    (PostProcBufferPools.createBufferPools C).1 = OK ∧
    ((PostProcBufferPools.createBufferPools C).2.map PostProcBuffer.index = List.range C) ∧
    (∀ k : Nat, (PostProcBufferPools.poolAcquire
        (PostProcBufferPools.acquireIter (PostProcBufferPools.createBufferPools C).2 k)).1.isSome
      ↔ k < C) ∧
    (∀ i is, PostProcBufferPools.createLoop (i :: is) [] = (UNKNOWN_ERROR, [])) := by
  have hlen : (PostProcBufferPools.initPool C).length = C := by
    simp [PostProcBufferPools.initPool]
  have hle : (List.range C).length ≤ (PostProcBufferPools.initPool C).length := by
    simp [hlen]
  have hmain : PostProcBufferPools.createBufferPools C =
      (OK, List.zipWith (fun i p => { p with index := i }) (List.range C)
        (PostProcBufferPools.initPool C)) := by
    rw [PostProcBufferPools.createBufferPools, createLoop_eq _ _ hle]
    have h1 : (PostProcBufferPools.initPool C).drop (List.range C).length = [] := by
      apply List.drop_eq_nil_iff.mpr
      simp [hlen]
    have h2 : (PostProcBufferPools.initPool C).take (List.range C).length =
        PostProcBufferPools.initPool C := by
      apply List.take_of_length_le
      simp [hlen]
    rw [h1, h2]
    simp
  have hfinlen : (PostProcBufferPools.createBufferPools C).2.length = C := by
    rw [hmain]
    simp [hlen]
  refine ⟨by rw [hmain], ?_, ?_, ?_⟩
  · rw [hmain]
    simpa using map_index_zipWith (List.range C) (PostProcBufferPools.initPool C)
      (by simp [hlen])
  · intro k
    rw [acquireIter_eq_drop]
    cases hd : (PostProcBufferPools.createBufferPools C).2.drop k with
    | nil =>
      have := List.drop_eq_nil_iff.mp hd
      rw [hfinlen] at this
      simp [PostProcBufferPools.poolAcquire]
      omega
    | cons q qs =>
      have hne : ¬ ((PostProcBufferPools.createBufferPools C).2.length ≤ k) := by
        intro hcon
        rw [List.drop_eq_nil_iff.mpr hcon] at hd
        exact List.noConfusion hd
      rw [hfinlen] at hne
      simp [PostProcBufferPools.poolAcquire]
      omega
  · intro i is
    rfl

/-- Propositional De Morgan helper: when no format pair fails jointly,
every format belongs to its supported pair. -/
theorem fmt_demorgan {a1 a2 b1 b2 c1 c2 d1 d2 : Prop}
    (h : ¬((¬a1 ∧ ¬a2) ∨ (¬b1 ∧ ¬b2) ∨ (¬c1 ∧ ¬c2) ∨ (¬d1 ∧ ¬d2))) :
    (a1 ∨ a2) ∧ (b1 ∨ b2) ∧ (c1 ∨ c2) ∧ (d1 ∨ d2) := by
  tauto

/-- Converse propositional De Morgan helper. -/
theorem fmt_demorgan_conv {a1 a2 b1 b2 c1 c2 d1 d2 : Prop}
    (h : (a1 ∨ a2) ∧ (b1 ∨ b2) ∧ (c1 ∨ c2) ∧ (d1 ∨ d2)) :
    ¬((¬a1 ∧ ¬a2) ∨ (¬b1 ∧ ¬b2) ∨ (¬c1 ∧ ¬c2) ∨ (¬d1 ∧ ¬d2)) := by
  tauto

/-- C9: `checkFmt` returns true exactly when the input or output buffer
carries a HAL format outside `{NV12, YCrCb_420_SP}` or a V4L2 format
outside `{NV12, NV21}`; consequently, on any frame whose crop region
differs from the active pixel array, the digital-zoom kernel reports the
unsupported-format error precisely when both buffers carry the nominally
supported formats. -/
theorem checkFmt_inverted (i o : CamFmt) (apa crop : CamWindow)
    (hne : ¬(crop.width = apa.width ∧ crop.height = apa.height ∧
             crop.left = apa.left ∧ crop.top = apa.top)) :
    (PostProcessUnitDigitalZoom.checkFmt (some i) (some o) = true ↔
      ((i.halFormat ≠ HAL_PIXEL_FORMAT_YCrCb_NV12 ∧
        i.halFormat ≠ HAL_PIXEL_FORMAT_YCrCb_420_SP) ∨
       (o.halFormat ≠ HAL_PIXEL_FORMAT_YCrCb_NV12 ∧
        o.halFormat ≠ HAL_PIXEL_FORMAT_YCrCb_420_SP) ∨
       (i.v4l2Fmt ≠ V4L2_PIX_FMT_NV12 ∧ i.v4l2Fmt ≠ V4L2_PIX_FMT_NV21) ∨
       (o.v4l2Fmt ≠ V4L2_PIX_FMT_NV12 ∧ o.v4l2Fmt ≠ V4L2_PIX_FMT_NV21))) ∧
    (PostProcessUnitDigitalZoom.processFrameStatus apa crop i o = UNKNOWN_ERROR ↔
      ((i.halFormat = HAL_PIXEL_FORMAT_YCrCb_NV12 ∨
        i.halFormat = HAL_PIXEL_FORMAT_YCrCb_420_SP) ∧
       (o.halFormat = HAL_PIXEL_FORMAT_YCrCb_NV12 ∨
        o.halFormat = HAL_PIXEL_FORMAT_YCrCb_420_SP) ∧
       (i.v4l2Fmt = V4L2_PIX_FMT_NV12 ∨ i.v4l2Fmt = V4L2_PIX_FMT_NV21) ∧
       (o.v4l2Fmt = V4L2_PIX_FMT_NV12 ∨ o.v4l2Fmt = V4L2_PIX_FMT_NV21))) := by
  have hiff : PostProcessUnitDigitalZoom.checkFmt (some i) (some o) = true ↔
      ((i.halFormat ≠ HAL_PIXEL_FORMAT_YCrCb_NV12 ∧
        i.halFormat ≠ HAL_PIXEL_FORMAT_YCrCb_420_SP) ∨
       (o.halFormat ≠ HAL_PIXEL_FORMAT_YCrCb_NV12 ∧
        o.halFormat ≠ HAL_PIXEL_FORMAT_YCrCb_420_SP) ∨
       (i.v4l2Fmt ≠ V4L2_PIX_FMT_NV12 ∧ i.v4l2Fmt ≠ V4L2_PIX_FMT_NV21) ∨
       (o.v4l2Fmt ≠ V4L2_PIX_FMT_NV12 ∧ o.v4l2Fmt ≠ V4L2_PIX_FMT_NV21)) := by
    simp [PostProcessUnitDigitalZoom.checkFmt, Bool.or_eq_true, Bool.and_eq_true,
      bne_iff_ne]
    tauto
  refine ⟨hiff, ?_⟩
  rw [PostProcessUnitDigitalZoom.processFrameStatus, if_neg hne]
  cases hcf : PostProcessUnitDigitalZoom.checkFmt (some i) (some o) with
  | false =>
    have hnd := (not_iff_not.mpr hiff).mp (by simp [hcf])
    have hall := fmt_demorgan hnd
    have hval : (if !false then UNKNOWN_ERROR else OK) = UNKNOWN_ERROR := by norm_num
    rw [hval]
    exact iff_of_true rfl hall
  | true =>
    have hval : (if !true then UNKNOWN_ERROR else OK) = OK := by norm_num
    rw [hval]
    constructor
    · intro hcon
      exact absurd hcon (by decide)
    · intro hsupp
      exact absurd (hiff.mp hcf) (fmt_demorgan_conv hsupp)

/-- C9 witness: a pair of NV12 buffers with a non-trivial crop region
makes the kernel report the unsupported-format error. -/
theorem checkFmt_inverted_witness :
    let f : CamFmt := ⟨HAL_PIXEL_FORMAT_YCrCb_NV12, V4L2_PIX_FMT_NV12⟩
    let apa : CamWindow := ⟨0, 0, 1920, 1080⟩
    let crop : CamWindow := ⟨0, 0, 960, 540⟩
    ¬(crop.width = apa.width ∧ crop.height = apa.height ∧
      crop.left = apa.left ∧ crop.top = apa.top) ∧
    (PostProcessUnitDigitalZoom.processFrameStatus apa crop f f = UNKNOWN_ERROR ↔
      ((f.halFormat = HAL_PIXEL_FORMAT_YCrCb_NV12 ∨
        f.halFormat = HAL_PIXEL_FORMAT_YCrCb_420_SP) ∧
       (f.halFormat = HAL_PIXEL_FORMAT_YCrCb_NV12 ∨
        f.halFormat = HAL_PIXEL_FORMAT_YCrCb_420_SP) ∧
       (f.v4l2Fmt = V4L2_PIX_FMT_NV12 ∨ f.v4l2Fmt = V4L2_PIX_FMT_NV21) ∧
       (f.v4l2Fmt = V4L2_PIX_FMT_NV12 ∨ f.v4l2Fmt = V4L2_PIX_FMT_NV21))) := by
  refine ⟨by decide, ?_⟩
  exact (checkFmt_inverted ⟨HAL_PIXEL_FORMAT_YCrCb_NV12, V4L2_PIX_FMT_NV12⟩
    ⟨HAL_PIXEL_FORMAT_YCrCb_NV12, V4L2_PIX_FMT_NV12⟩ ⟨0, 0, 1920, 1080⟩
    ⟨0, 0, 960, 540⟩ (by decide)).2

/-- C10: the "generic split" loop of `lsc_config` never executes its
body (its condition `i++` tests the initial value 0), so for every input
width and height the block-size tables keep the hard-coded 1080p
defaults, with only the last entry of each adjusted by half the
width/height remainder modulo 16. -/
theorem lsc_config_split_loop_dead (w h : Nat) :
    PostProcessUnitSwLsc.lscConfigSizes w h =
      (0, [120, 120, 120, 120, 120, 120, 120, 120 + w % 16 / 2],
          [67, 68, 67, 68, 67, 68, 67, 68 + h % 16 / 2]) := by
  have hloop : lscSplitLoop 8 0 w h lscSizexDefault lscSizeyDefault =
      (0, lscSizexDefault, lscSizeyDefault) := by
    rw [lscSplitLoop]
    simp
  rw [PostProcessUnitSwLsc.lscConfigSizes, hloop]
  simp [lscAdjustLast, lscSizexDefault, lscSizeyDefault, List.set, List.getD]

/-- C2: for a single requested stream matching the input frame's width
and height, with a non-BLOB format, zero rotation and no digital-zoom
capability, `prepare` reports that no post-processing is needed. -/
theorem prepare_needpostprocess_false (inf : FrameInfo) (s : Camera3Stream) (mz : ℚ)
    (hfmt : s.format ≠ HAL_PIXEL_FORMAT_BLOB)
    (hw : s.width = inf.width) (hh : s.height = inf.height)
    (hrot : getRotationDegrees s = 0)
    (hz : mz ≤ 1) :
    (PostProcessPipeLine.prepare inf [s] mz).needpostprocess = false := by
  have hst : streamProcessType inf s = 0 := by
    simp [streamProcessType, hfmt, hw, hh]
  have hcm : commonProcessType [s] mz = 0 := by
    simp [commonProcessType, hrot, not_lt.mpr hz]
  show needPostProcessOf inf [s] mz = false
  rw [needPostProcessOf, streamsPostProc, hcm]
  simp only [List.map_cons, List.map_nil, hst]
  rw [injectCopyIfNeed]
  norm_num [needPostProcess]
  decide

/-- C2 witness: a 1920×1080 NV21 stream over a 1920×1080 input with no
rotation and maximal digital zoom 1.0. -/
theorem prepare_needpostprocess_false_witness :
    let inf : FrameInfo := ⟨1920, 1080⟩
    let s : Camera3Stream := ⟨CAMERA3_STREAM_OUTPUT, HAL_PIXEL_FORMAT_YCrCb_420_SP,
                              1920, 1080, 0⟩
    s.format ≠ HAL_PIXEL_FORMAT_BLOB ∧ s.width = inf.width ∧ s.height = inf.height ∧
    getRotationDegrees s = 0 ∧ (1 : ℚ) ≤ 1 ∧
    (PostProcessPipeLine.prepare inf [s] 1).needpostprocess = false := by
  refine ⟨by decide, rfl, rfl, by decide, le_refl 1, ?_⟩
  exact prepare_needpostprocess_false ⟨1920, 1080⟩
    ⟨CAMERA3_STREAM_OUTPUT, HAL_PIXEL_FORMAT_YCrCb_420_SP, 1920, 1080, 0⟩ 1
    (by decide) rfl rfl (by decide) (le_refl 1)

/-- Count of a singleton list. -/
theorem count_singleton_nat (x j : Nat) : ([x].count j) = if j = x then 1 else 0 := by
  simp [List.count_cons]
  split_ifs <;> omega

/-- The level-bucket invariant maintained by graph construction: each
created node id occurs exactly once in the concatenation of the First
and Middle buckets, and at most once in the Last bucket; ids not yet
created occur nowhere. -/
def LevelInv (st : BuildState) : Prop :=
  (∀ j, (st.firstLevel ++ st.middleLevel).count j = if j < st.nextId then 1 else 0) ∧
  (∀ j, st.lastLevel.count j ≤ 1) ∧
  (∀ j, st.nextId ≤ j → st.lastLevel.count j = 0)

/-- A creation step — one fresh id appended once to First-or-Middle and
at most once to Last — preserves the level-bucket invariant. -/
theorem levelInv_create (st st' : BuildState) (h : LevelInv st)
    (h1 : st'.nextId = st.nextId + 1)
    (h2 : ∀ j, (st'.firstLevel ++ st'.middleLevel).count j =
      (st.firstLevel ++ st.middleLevel).count j + if j = st.nextId then 1 else 0)
    (h3 : st'.lastLevel = st.lastLevel ∨ st'.lastLevel = st.lastLevel ++ [st.nextId]) :
    LevelInv st' := by
  obtain ⟨ha, hb, hc⟩ := h
  refine ⟨?_, ?_, ?_⟩
  · intro j
    rw [h2 j, ha j, h1]
    split_ifs <;> omega
  · intro j
    rcases h3 with h3 | h3 <;> rw [h3]
    · exact hb j
    · rw [List.count_append, count_singleton_nat]
      by_cases hj : j = st.nextId
      · rw [hc j (by omega), if_pos hj]
      · rw [if_neg hj]
        have := hb j
        omega
  · intro j hj
    rw [h1] at hj
    rcases h3 with h3 | h3 <;> rw [h3]
    · exact hc j (by omega)
    · rw [List.count_append, count_singleton_nat, hc j (by omega), if_neg (by omega)]

/-- `createLinked` with no upstream and not terminal. -/
theorem createLinked_none_false (sIdx : Nat) (st : BuildState) :
    createLinked none false sIdx st =
      { st with nextId := st.nextId + 1, units := st.units ++ [st.nextId],
                firstLevel := st.firstLevel ++ [st.nextId] } := rfl

/-- `createLinked` with no upstream, terminal: the Last-level link fails
in `linkPostProcUnit` (null upstream at a non-First level), so only the
First bucket receives the node; the handler attach and stream-map entry
still happen. -/
theorem createLinked_none_true (sIdx : Nat) (st : BuildState) :
    createLinked none true sIdx st =
      { st with nextId := st.nextId + 1, units := st.units ++ [st.nextId],
                firstLevel := st.firstLevel ++ [st.nextId],
                outHandlerListeners := st.outHandlerListeners ++ [st.nextId],
                streamMap := st.streamMap ++ [(sIdx, st.nextId)] } := rfl

/-- `createLinked` with an upstream, not terminal. -/
theorem createLinked_some_false (t sIdx : Nat) (st : BuildState) :
    createLinked (some t) false sIdx st =
      { st with nextId := st.nextId + 1,
                listeners := st.listeners ++ [(t, st.nextId)],
                units := st.units ++ [st.nextId],
                middleLevel := st.middleLevel ++ [st.nextId] } := rfl

/-- `createLinked` with an upstream, terminal: the node is registered in
both the Middle and the Last bucket, and the listener edge is attached
twice. -/
theorem createLinked_some_true (t sIdx : Nat) (st : BuildState) :
    createLinked (some t) true sIdx st =
      { st with nextId := st.nextId + 1,
                listeners := (st.listeners ++ [(t, st.nextId)]) ++ [(t, st.nextId)],
                units := (st.units ++ [st.nextId]) ++ [st.nextId],
                middleLevel := st.middleLevel ++ [st.nextId],
                lastLevel := st.lastLevel ++ [st.nextId],
                outHandlerListeners := st.outHandlerListeners ++ [st.nextId],
                streamMap := st.streamMap ++ [(sIdx, st.nextId)] } := rfl

/-- Any `createLinked` call preserves the level-bucket invariant. -/
theorem createLinked_inv (toU : Option Nat) (isLast : Bool) (sIdx : Nat)
    (st : BuildState) (h : LevelInv st) : LevelInv (createLinked toU isLast sIdx st) := by
  cases toU with
  | none =>
    cases isLast with
    | false =>
      rw [createLinked_none_false]
      refine levelInv_create st _ h rfl ?_ (Or.inl rfl)
      intro j
      simp only [List.count_append, count_singleton_nat]
      split_ifs <;> omega
    | true =>
      rw [createLinked_none_true]
      refine levelInv_create st _ h rfl ?_ (Or.inl rfl)
      intro j
      simp only [List.count_append, count_singleton_nat]
      split_ifs <;> omega
  | some t =>
    cases isLast with
    | false =>
      rw [createLinked_some_false]
      refine levelInv_create st _ h rfl ?_ (Or.inl rfl)
      intro j
      simp only [List.count_append, count_singleton_nat]
      split_ifs <;> omega
    | true =>
      rw [createLinked_some_true]
      refine levelInv_create st _ h rfl ?_ (Or.inr rfl)
      intro j
      simp only [List.count_append, count_singleton_nat]
      split_ifs <;> omega

/-- A common-chain loop iteration preserves the invariant. -/
theorem commonStep_inv (common lastCommon : Nat) (acc : BuildState × Option Nat)
    (i : Nat) (h : LevelInv acc.1) : LevelInv (commonStep common lastCommon acc i).1 := by
  simp only [commonStep]
  by_cases hc : common &&& 2 ^ i ≠ 0 ∧ commonUnitKnown (2 ^ i) = true
  · rw [if_pos hc]
    exact createLinked_inv _ _ _ _ h
  · rw [if_neg hc]
    exact h

/-- A stream-chain loop iteration preserves the invariant. -/
theorem streamStep_inv (procType lastStream sIdx : Nat) (acc : BuildState × Option Nat)
    (i : Nat) (h : LevelInv acc.1) : LevelInv (streamStep procType lastStream sIdx acc i).1 := by
  simp only [streamStep]
  by_cases hc : procType &&& 2 ^ i ≠ 0 ∧ streamUnitKnown (2 ^ i) = true
  · rw [if_pos hc]
    exact createLinked_inv _ _ _ _ h
  · rw [if_neg hc]
    exact h

/-- A fold by invariant-preserving steps preserves the invariant. -/
theorem foldl_inv {α β : Type} (P : β → Prop) (f : β → α → β)
    (hf : ∀ b a, P b → P (f b a)) (l : List α) :
    ∀ b, P b → P (l.foldl f b) := by
  induction l with
  | nil => intro b hb; simpa using hb
  | cons x xs ih =>
    intro b hb
    rw [List.foldl_cons]
    exact ih _ (hf b x hb)

/-- Graph construction establishes the level-bucket invariant. -/
theorem prepareBuild_inv (inf : FrameInfo) (streams : List Camera3Stream) (mz : ℚ) :
    LevelInv (prepareBuild inf streams mz) := by
  have hinit : LevelInv (⟨0, [], [], [], [], [], [], []⟩ : BuildState) := by
    refine ⟨?_, ?_, ?_⟩ <;> intro j <;> simp
  simp only [prepareBuild]
  apply foldl_inv LevelInv _ ?_ _ _ ?_
  · intro b a hb
    apply foldl_inv (fun acc => LevelInv acc.1) _
      (fun b2 a2 hb2 => streamStep_inv _ _ _ b2 a2 hb2)
    exact hb
  · apply foldl_inv (fun acc => LevelInv acc.1) _
      (fun b2 a2 hb2 => commonStep_inv _ _ b2 a2 hb2)
    exact hinit

/-- C3 (amended): after graph construction, every created node appears
exactly once in the union of the First and Middle buckets — in exactly
one of the two — and at most once in the Last bucket (a terminal node
with an upstream producer is additionally registered in Last, so it sits
in two buckets). -/
theorem prepare_level_partition (inf : FrameInfo) (streams : List Camera3Stream)
    (mz : ℚ) (j : Nat)
    (hj : j < (PostProcessPipeLine.prepare inf streams mz).build.nextId) :
    ((PostProcessPipeLine.prepare inf streams mz).build.firstLevel ++
     (PostProcessPipeLine.prepare inf streams mz).build.middleLevel).count j = 1 ∧
    (PostProcessPipeLine.prepare inf streams mz).build.lastLevel.count j ≤ 1 := by
  obtain ⟨h1, h2, _⟩ := prepareBuild_inv inf streams mz
  have hb : (PostProcessPipeLine.prepare inf streams mz).build =
      prepareBuild inf streams mz := rfl
  rw [hb] at hj ⊢
  exact ⟨by rw [h1 j, if_pos hj], h2 j⟩

/-- The 1920×1080 input of the C3 scenario. -/
def c3Inf : FrameInfo := ⟨1920, 1080⟩

/-- The 1280×720 NV21 output stream of the C3 scenario. -/
def c3Stream : Camera3Stream :=
  ⟨CAMERA3_STREAM_OUTPUT, HAL_PIXEL_FORMAT_YCrCb_420_SP, 1280, 720, 0⟩

/-- C3 counterexample: with a 1920×1080 input, one scaled 1280×720
stream and digital zoom available (maximal zoom 2), `prepare` creates a
zoom node (id 0) and a scale node (id 1), and the scale node — terminal
with an upstream producer — is registered in *both* the Middle and the
Last bucket, contradicting "exactly one level bucket". -/
theorem prepare_level_counterexample :
    (PostProcessPipeLine.prepare c3Inf [c3Stream] 2).build.nextId = 2 ∧
    1 ∈ (PostProcessPipeLine.prepare c3Inf [c3Stream] 2).build.middleLevel ∧
    1 ∈ (PostProcessPipeLine.prepare c3Inf [c3Stream] 2).build.lastLevel := by
  decide

/-- C3 witness: node 1 of the same scenario occurs once in
First ++ Middle and at most once in Last. -/
theorem prepare_level_partition_witness :
    1 < (PostProcessPipeLine.prepare c3Inf [c3Stream] 2).build.nextId ∧
    ((PostProcessPipeLine.prepare c3Inf [c3Stream] 2).build.firstLevel ++
     (PostProcessPipeLine.prepare c3Inf [c3Stream] 2).build.middleLevel).count 1 = 1 ∧
    (PostProcessPipeLine.prepare c3Inf [c3Stream] 2).build.lastLevel.count 1 ≤ 1 := by
  refine ⟨by decide, ?_⟩
  have := prepare_level_partition c3Inf [c3Stream] 2 1 (by decide)
  exact this

/-- A key present in a table whose entries all carry group 0 looks up to
group 0. -/
theorem lookupTable_eq_zero (t : List (Option Nat × Nat)) (k : Option Nat)
    (hmem : k ∈ t.map Prod.fst) (hz : ∀ e ∈ t, e.2 = 0) :
    lookupTable t k = some 0 := by
  induction t with
  | nil => simp at hmem
  | cons e t ih =>
    rw [lookupTable]
    by_cases he : e.1 = k
    · rw [if_pos he, hz e (by simp)]
    · rw [if_neg he]
      simp only [List.map_cons, List.mem_cons] at hmem
      rcases hmem with h | h
      · exact absurd h.symm he
      · exact ih h (fun e' he' => hz e' (by simp [he']))

/-- First-match erase on a key list (the key-level view of
`std::map::erase`). -/
def eraseNK : List (Option Nat) → Option Nat → List (Option Nat)
  | [], _ => []
  | x :: t, k => if x = k then t else x :: eraseNK t k

/-- Erasing a key from the table erases it from the key list. -/
theorem mapFst_eraseKey (t : List (Option Nat × Nat)) (k : Option Nat) :
    (eraseKey t k).map Prod.fst = eraseNK (t.map Prod.fst) k := by
  induction t with
  | nil => rfl
  | cons e t ih =>
    by_cases he : e.1 = k
    · simp [eraseKey, he, eraseNK]
    · simp [eraseKey, he, eraseNK, ih]

/-- `eraseNK` respects permutation of the key list. -/
theorem perm_eraseNK (k : Option Nat) :
    ∀ {A B : List (Option Nat)}, A.Perm B → (eraseNK A k).Perm (eraseNK B k) := by
  intro A B h
  induction h with
  | nil => exact List.Perm.refl _
  | cons x h1 ih =>
    by_cases hx : x = k
    · simpa [eraseNK, hx] using h1
    · simp only [eraseNK, if_neg hx]
      exact List.Perm.cons x ih
  | swap x y l =>
    by_cases hy : y = k
    · by_cases hx : x = k <;> simp [eraseNK, hx, hy]
    · by_cases hx : x = k
      · simp [eraseNK, hx, hy]
      · simp only [eraseNK, if_neg hx, if_neg hy]
        exact List.Perm.swap x y (eraseNK l k)
  | trans _ _ ih1 ih2 => exact ih1.trans ih2

/-- Entries surviving an erase were in the table. -/
theorem eraseKey_mem (t : List (Option Nat × Nat)) (k : Option Nat)
    (e : Option Nat × Nat) (he : e ∈ eraseKey t k) : e ∈ t := by
  induction t with
  | nil => simp [eraseKey] at he
  | cons f t ih =>
    rw [eraseKey] at he
    by_cases hf : f.1 = k
    · rw [if_pos hf] at he
      exact List.mem_cons_of_mem f he
    · rw [if_neg hf] at he
      rcases List.mem_cons.mp he with h | h
      · rw [h]; exact List.mem_cons_self f t
      · exact List.mem_cons_of_mem f (ih h)

/-- Inserting a fresh key appends the entry. -/
theorem insertTable_not_mem (t : List (Option Nat × Nat)) (k : Option Nat) (g : Nat)
    (h : k ∉ t.map Prod.fst) : insertTable t k g = t ++ [(k, g)] := by
  induction t with
  | nil => rfl
  | cons e t ih =>
    simp only [List.map_cons, List.mem_cons, not_or] at h
    obtain ⟨h1, h2⟩ := h
    rw [insertTable, if_neg (fun hc => h1 hc.symm), ih h2]
    rfl

/-- Folding fresh, pairwise-distinct keys into a table appends one entry
per key (`addSyncBuffersIfNeed`'s installation loop). -/
theorem foldl_insertTable (g : Nat) (l : List PostProcBuffer) :
    ∀ t : List (Option Nat × Nat),
      (∀ o ∈ l, camKey o ∉ t.map Prod.fst) →
      (l.map camKey).Nodup →
      l.foldl (fun t2 o => insertTable t2 (camKey o) g) t =
        t ++ l.map (fun o => (camKey o, g)) := by
  induction l with
  | nil => intro t _ _; simp
  | cons o l ih =>
    intro t hfresh hnd
    have hnd' : camKey o ∉ l.map camKey ∧ (l.map camKey).Nodup := by
      rw [List.map_cons] at hnd
      exact List.nodup_cons.mp hnd
    rw [List.foldl_cons, insertTable_not_mem _ _ _ (hfresh o (by simp))]
    rw [ih (t ++ [(camKey o, g)]) ?_ hnd'.2]
    · simp
    · intro o' ho'
      simp only [List.map_append, List.mem_append, List.map_cons, List.map_nil, not_or]
      constructor
      · exact hfresh o' (by simp [ho'])
      · intro hmem
        simp only [List.mem_singleton] at hmem
        exact hnd'.1 (hmem ▸ List.mem_map_of_mem camKey ho')

/-- Processing all deliveries of one installed sync group: nothing is
emitted before the last delivery, and the last delivery emits the
group's buffer set. -/
theorem notifyAll_sync (outb : List PostProcBuffer) :
    ∀ (ds : List PostProcBuffer) (s : HandlerState),
      s.mayNeedSync = true →
      s.groups = [⟨(ds.length : Int), outb⟩] →
      ((s.table.map Prod.fst).Perm (ds.map camKey)) →
      (∀ e ∈ s.table, e.2 = 0) →
      (ds.map camKey).Nodup →
      ds ≠ [] →
      (notifyAll s ds).2 = outb ∧
      (∀ p q, ds = p ++ q → q ≠ [] → (notifyAll s p).2 = []) := by
  intro ds
  induction ds with
  | nil => intro s _ _ _ _ _ hne; exact absurd rfl hne
  | cons b bs ih =>
    intro s hm hg hperm hz hnd _
    have hkmem : camKey b ∈ s.table.map Prod.fst := by
      apply hperm.mem_iff.mpr
      simp
    have hlook : lookupTable s.table (camKey b) = some 0 :=
      lookupTable_eq_zero _ _ hkmem hz
    have hstep : OutputBuffersHandler.notifyNewFrame s b =
        ({ s with groups := [⟨(bs.length : Int), outb⟩],
                  table := eraseKey s.table (camKey b) },
         if (bs.length : Int) = 0 then outb else []) := by
      simp [OutputBuffersHandler.notifyNewFrame, hm, hlook, hg, getGroup, setGroup,
        add_sub_cancel_right]
    cases bs with
    | nil =>
      refine ⟨?_, ?_⟩
      · simp [notifyAll, hstep]
      · intro p q hpq hq
        cases p with
        | nil => simp [notifyAll]
        | cons p1 ps =>
          rw [List.cons_append] at hpq
          injection hpq with h1 h2
          exact absurd (List.append_eq_nil.mp h2.symm).2 hq
    | cons b2 bs' =>
      have hne0 : ((b2 :: bs').length : Int) ≠ 0 := by
        simp only [List.length_cons]
        omega
      rw [if_neg hne0] at hstep
      have hkeys : ((eraseKey s.table (camKey b)).map Prod.fst).Perm
          ((b2 :: bs').map camKey) := by
        rw [mapFst_eraseKey]
        have h2 := perm_eraseNK (camKey b) hperm
        simpa [eraseNK] using h2
      have hnd' : ((b2 :: bs').map camKey).Nodup :=
        (List.nodup_cons.mp (by simpa using hnd)).2
      obtain ⟨ih1, ih2⟩ := ih
        { s with groups := [⟨((b2 :: bs').length : Int), outb⟩],
                 table := eraseKey s.table (camKey b) }
        hm (by simp) (by simpa using hkeys)
        (fun e he => hz e (eraseKey_mem _ _ e he)) hnd' (by simp)
      refine ⟨?_, ?_⟩
      · simp only [notifyAll, hstep]
        simpa using ih1
      · intro p q hpq hq
        cases p with
        | nil => simp [notifyAll]
        | cons p1 ps =>
          rw [List.cons_append] at hpq
          injection hpq with h1 h2
          subst h1
          simp only [notifyAll, hstep]
          simpa using ih2 ps q h2 hq

/-- C1 (amended): for a dispatched frame whose output set (size K ≥ 2)
consists of pairwise-distinct physical buffers, at least one of which
aliases the input's physical buffer, the handler installed by
`addSyncBuffersIfNeed` delivers each output buffer to the external
completion listener exactly once, and only at the K-th terminal delivery
(the shared countdown, initialized to K, reaches zero); a terminal
delivery whose buffer is not in the sync-group table is delivered
immediately. -/
theorem sync_group_exactly_once (inb : PostProcBuffer) (out ds : List PostProcBuffer)
    (hlen : 2 ≤ out.length)
    (hnd : (out.map camKey).Nodup)
    (hh : camHasHandle inb = true)
    (halias : ∃ o ∈ out, camKey o = camKey inb)
    (hperm : ds.Perm out) :
    (notifyAll (OutputBuffersHandler.addSyncBuffersIfNeed ⟨true, [], []⟩ inb out) ds).2
      = out ∧
    (∀ b ∈ out,
      (notifyAll (OutputBuffersHandler.addSyncBuffersIfNeed ⟨true, [], []⟩ inb out) ds).2.count b
        = 1) ∧
    (∀ p q, ds = p ++ q → q ≠ [] →
      (notifyAll (OutputBuffersHandler.addSyncBuffersIfNeed ⟨true, [], []⟩ inb out) p).2 = []) ∧
    (∀ b, lookupTable
        (OutputBuffersHandler.addSyncBuffersIfNeed ⟨true, [], []⟩ inb out).table (camKey b)
        = none →
      OutputBuffersHandler.notifyNewFrame
          (OutputBuffersHandler.addSyncBuffersIfNeed ⟨true, [], []⟩ inb out) b =
        (OutputBuffersHandler.addSyncBuffersIfNeed ⟨true, [], []⟩ inb out, [b])) := by
  have hany : out.any (fun o => camKey o = camKey inb) = true := by
    obtain ⟨o, ho, hko⟩ := halias
    simp only [List.any_eq_true, decide_eq_true_eq]
    exact ⟨o, ho, hko⟩
  have hs0 : OutputBuffersHandler.addSyncBuffersIfNeed ⟨true, [], []⟩ inb out =
      ⟨true, out.map (fun o => (camKey o, 0)), [⟨(out.length : Int), out⟩]⟩ := by
    rw [OutputBuffersHandler.addSyncBuffersIfNeed,
      if_pos ⟨rfl, by omega, hh⟩, if_pos hany]
    have hfold := foldl_insertTable 0 out ([] : List (Option Nat × Nat))
      (by intro o _; simp) hnd
    simp only [List.length_nil, List.nil_append] at hfold ⊢
    rw [hfold]
  have hgroups : ([⟨(out.length : Int), out⟩] : List SyncItem) =
      [⟨(ds.length : Int), out⟩] := by
    rw [hperm.length_eq]
  have hkeys0 : (((out.map (fun o => (camKey o, 0))).map Prod.fst)).Perm
      (ds.map camKey) := by
    have heq : (out.map (fun o => (camKey o, 0))).map Prod.fst = out.map camKey := by
      simp [List.map_map, Function.comp]
    rw [heq]
    exact (hperm.map camKey).symm
  have hz0 : ∀ e ∈ out.map (fun o => (camKey o, 0)), e.2 = 0 := by
    intro e he
    simp only [List.mem_map] at he
    obtain ⟨o, _, ho⟩ := he
    rw [← ho]
  have hdsne : ds ≠ [] := by
    intro hc
    rw [hc] at hperm
    have := hperm.length_eq
    simp at this
    omega
  have hmain := notifyAll_sync out ds
    ⟨true, out.map (fun o => (camKey o, 0)), [⟨(out.length : Int), out⟩]⟩
    rfl (by simp only; rw [hgroups]) hkeys0 hz0
    (((hperm.map camKey).nodup_iff).mpr hnd) hdsne
  rw [hs0]
  obtain ⟨h1, h2⟩ := hmain
  have hout_nodup : out.Nodup := List.Nodup.of_map camKey hnd
  refine ⟨h1, ?_, h2, ?_⟩
  · intro b hb
    rw [h1]
    exact List.count_eq_one_of_mem hout_nodup hb
  · intro b hlooknone
    rw [OutputBuffersHandler.notifyNewFrame]
    simp only [Bool.not_true, Bool.false_eq_true, if_false, hlooknone]

/-- The shared camera buffer of the C1 counterexample. -/
def c1Cam : CamBuf := ⟨5, true, false⟩

/-- The input buffer of the C1 counterexample (physical buffer 5). -/
def c1In : PostProcBuffer := ⟨2, some c1Cam, 0⟩

/-- First aliased output destination (physical buffer 5). -/
def c1Out0 : PostProcBuffer := ⟨0, some c1Cam, 0⟩

/-- Second aliased output destination (physical buffer 5). -/
def c1Out1 : PostProcBuffer := ⟨1, some c1Cam, 0⟩

/-- C1 counterexample: when K = 2 requested destinations alias the same
physical buffer, the sync-table keys collide (one entry, countdown 2);
the first terminal delivery decrements the countdown to 1 and erases the
entry without emitting, and the second delivery then misses the table
and is forwarded alone — so after both producing branches have
delivered, the external listener has received the first branch's buffer
zero times, not exactly once. -/
theorem sync_group_alias_counterexample :
    (notifyAll (OutputBuffersHandler.addSyncBuffersIfNeed ⟨true, [], []⟩ c1In
        [c1Out0, c1Out1]) [c1Out0, c1Out1]).2 = [c1Out1] ∧
    (notifyAll (OutputBuffersHandler.addSyncBuffersIfNeed ⟨true, [], []⟩ c1In
        [c1Out0, c1Out1]) [c1Out0, c1Out1]).2.count c1Out0 = 0 := by
  decide

/-- Input buffer of the C1 witness (physical buffer 5). -/
def c1WIn : PostProcBuffer := ⟨2, some ⟨5, true, false⟩, 0⟩

/-- Output set of the C1 witness: distinct physical buffers 5 and 6,
the first aliasing the input. -/
def c1WOut : List PostProcBuffer :=
  [⟨0, some ⟨5, true, false⟩, 0⟩, ⟨1, some ⟨6, true, false⟩, 0⟩]

/-- C1 witness: the amended synchronization property evaluated on a
concrete two-stream output set with distinct physical buffers. -/
theorem sync_group_exactly_once_witness :
    2 ≤ c1WOut.length ∧ (c1WOut.map camKey).Nodup ∧ camHasHandle c1WIn = true ∧
    (∃ o ∈ c1WOut, camKey o = camKey c1WIn) ∧ c1WOut.Perm c1WOut ∧
    (notifyAll (OutputBuffersHandler.addSyncBuffersIfNeed ⟨true, [], []⟩ c1WIn c1WOut)
      c1WOut).2 = c1WOut := by
  refine ⟨by decide, by decide, by decide, by decide, List.Perm.refl _, ?_⟩
  exact (sync_group_exactly_once c1WIn c1WOut c1WOut (by decide) (by decide)
    (by decide) (by decide) (List.Perm.refl _)).1
